import Mathlib

/-!
Shallow embedding of the Spenden-Tracker application (src/App.js):
the transaction store (addTransaction, updateTransaction,
deleteTransaction, saveTransactions), the derived totals, the filter
logic of the income and expense screens, and the theme preference.
Amounts are modelled as rationals, ids and dates as integers
(millisecond timestamps, as produced by Date.now and Date parsing).
-/

/-- A transaction record, as kept in the provider state and persisted
under the storage key. The optional note is modelled as a string that
is empty when absent, matching how the app writes it (note.trim()). -/
structure Tx where
  id : Int
  amount : Rat
  category : String
  isIncome : Bool
  date : Int
  note : String
  isPinned : Bool
deriving DecidableEq

/-- The comparator of saveTransactions and loadTransactions,
(a, b) => new Date(b.date) - new Date(a.date): a precedes b exactly
when b.date ≤ a.date, giving date-descending order. -/
def dateGE (a b : Tx) : Prop := b.date ≤ a.date

instance : DecidableRel dateGE := fun a b => Int.decLe b.date a.date

instance : IsTotal Tx dateGE := ⟨fun a b => le_total b.date a.date⟩

instance : IsTrans Tx dateGE := ⟨fun _ _ _ h1 h2 => le_trans h2 h1⟩

/-- The full re-sort that saveTransactions applies to the collection.
JS Array.prototype.sort is a stable sort; every theorem below depends
only on the result being a sorted permutation of the input and on the
sort of an already sorted list being the identity, which hold for any
stable sort, in particular for this insertion sort. -/
def sortTx (l : List Tx) : List Tx := l.insertionSort dateGE

/-- Sorted by date descending, the order maintained by the store. -/
def SortedTx (l : List Tx) : Prop := l.Sorted dateGE

/-- The fields supplied by the add modal; id and isPinned are set by
addTransaction itself. -/
structure TxInput where
  amount : Rat
  category : String
  isIncome : Bool
  date : Int
  note : String
deriving DecidableEq

/-- The record built by addTransaction: the input fields with
id := Date.now() and isPinned := false. -/
def mkTx (now : Int) (t : TxInput) : Tx :=
  { id := now, amount := t.amount, category := t.category,
    isIncome := t.isIncome, date := t.date, note := t.note,
    isPinned := false }

/-- The collection produced by addTransaction on a successful write:
the new record is prepended and saveTransactions re-sorts. -/
def addList (now : Int) (t : TxInput) (l : List Tx) : List Tx :=
  sortTx (mkTx now t :: l)

/-- The record that updateTransaction stores for a matching element:
the supplied record with its id field overwritten by the matched id. -/
def setTxId (i : Int) (u : Tx) : Tx := { u with id := i }

/-- The map inside updateTransaction: each element whose id matches is
replaced by the supplied record with the id forced back, every other
element is kept as is. -/
def applyUpdate (i : Int) (u : Tx) (l : List Tx) : List Tx :=
  l.map fun t => if t.id = i then setTxId i u else t

/-- The collection produced by updateTransaction on a successful
write, including the re-sort of saveTransactions. -/
def updateList (i : Int) (u : Tx) (l : List Tx) : List Tx :=
  sortTx (applyUpdate i u l)

/-- The collection produced by deleteTransaction on a successful
write: the filter keeping every element with a different id, then the
re-sort of saveTransactions. -/
def deleteList (i : Int) (l : List Tx) : List Tx :=
  sortTx (l.filter fun t => t.id != i)

/-- totalIncome: transactions.filter(t => t.isIncome)
.reduce((s, t) => s + t.amount, 0). -/
def totalIncome (l : List Tx) : Rat :=
  (l.filter fun t => t.isIncome).foldl (fun s t => s + t.amount) 0

/-- totalExpense: transactions.filter(t => !t.isIncome)
.reduce((s, t) => s + t.amount, 0). -/
def totalExpense (l : List Tx) : Rat :=
  (l.filter fun t => !t.isIncome).foldl (fun s t => s + t.amount) 0

/-- balance = totalIncome - totalExpense. -/
def balance (l : List Tx) : Rat := totalIncome l - totalExpense l

/-- The provider state relevant to the store: the in-memory React
state list, the content of the persisted transactions key (none when
nothing was ever written), and the console.error log emitted by the
app code itself. -/
structure StoreState where
  transactions : List Tx
  storage : Option (List Tx)
  log : List String
deriving DecidableEq

/-- saveTransactions(list): sorts a copy of the list, awaits the
storage write, and only then updates the in-memory state. The flag ok
says whether the storage write succeeds; when it throws, the catch
block logs and the in-memory update is never reached, so transactions
and storage keep their previous values. -/
def saveTransactions (ok : Bool) (list : List Tx) (s : StoreState) :
    StoreState :=
  if ok then
    { transactions := sortTx list, storage := some (sortTx list),
      log := s.log }
  else
    { transactions := s.transactions, storage := s.storage,
      log := s.log ++ ["Failed to save transactions"] }

/-- addTransaction(t): builds the record with a Date.now() id and
isPinned false, prepends it, and hands the list to saveTransactions. -/
def addTransaction (ok : Bool) (now : Int) (t : TxInput)
    (s : StoreState) : StoreState :=
  saveTransactions ok (mkTx now t :: s.transactions) s

/-- updateTransaction(id, u): maps over the collection replacing the
matching element, and hands the list to saveTransactions. -/
def updateTransaction (ok : Bool) (i : Int) (u : Tx) (s : StoreState) :
    StoreState :=
  saveTransactions ok (applyUpdate i u s.transactions) s

/-- deleteTransaction(id): filters out the matching element and hands
the list to saveTransactions. -/
def deleteTransaction (ok : Bool) (i : Int) (s : StoreState) :
    StoreState :=
  saveTransactions ok (s.transactions.filter fun t => t.id != i) s

/-- The theme part of the provider state: the in-memory flag, the
content of the persisted theme key, and the console.error log emitted
by the app code. -/
structure ThemeState where
  isDarkMode : Bool
  themeStorage : Option String
  log : List String
deriving DecidableEq

/-- toggleTheme: computes the flipped value, updates the in-memory
flag, then awaits the storage write, with no try/catch around it. On
a write failure the flipped in-memory value has already been set and
is kept, the stored value is unchanged, and nothing is logged by the
app (the rejection escapes unhandled). -/
def toggleTheme (ok : Bool) (s : ThemeState) : ThemeState :=
  let next := !s.isDarkMode
  if ok then
    { isDarkMode := next,
      themeStorage := some (if next then "dark" else "light"),
      log := s.log }
  else
    { isDarkMode := next, themeStorage := s.themeStorage, log := s.log }

/-- JS String.prototype.includes on character sequences: the needle
occurs contiguously somewhere in the haystack. -/
def charsContain (needle : List Char) : List Char → Bool
  | [] => needle.isEmpty
  | c :: rest => needle.isPrefixOf (c :: rest) || charsContain needle rest

/-- hay.toLowerCase().includes(needle.toLowerCase()), the
case-insensitive containment test used by the screens. -/
def ciIncludes (hay needle : String) : Bool :=
  charsContain needle.toLower.data hay.toLower.data

/-- The body of the second filter of the income and expense screens:
the category condition (no selection, or the category is among the
selected ones) and the search condition (empty search, or the search
text occurs case-insensitively in the category, or the note is
non-empty and the search text occurs in it), combined with AND. -/
def matchesFilters (selected : List String) (search : String)
    (t : Tx) : Bool :=
  (selected.length == 0 || selected.contains t.category) &&
  (search == "" || ciIncludes t.category search ||
    (!(t.note == "") && ciIncludes t.note search))

/-- filteredTransactions of the income screen: keep income entries,
then apply the category and search conditions. -/
def incomeFiltered (selected : List String) (search : String)
    (l : List Tx) : List Tx :=
  (l.filter fun t => t.isIncome).filter (matchesFilters selected search)

/-- filteredTransactions of the expense screen: keep expense entries,
then apply the category and search conditions. -/
def expenseFiltered (selected : List String) (search : String)
    (l : List Tx) : List Tx :=
  (l.filter fun t => !t.isIncome).filter (matchesFilters selected search)

/-- Written from the wording of claim C6: a transaction passes the
view filter when its kind matches, and the selected set is empty or
contains its category, and the search text is empty or is a
case-insensitive substring of the category or, when the note is
present, of the note. -/
def viewPred (kind : Bool) (selected : List String) (search : String)
    (t : Tx) : Bool :=
  (t.isIncome == kind) &&
  (decide (selected = []) || decide (t.category ∈ selected)) &&
  (decide (search = "") || ciIncludes t.category search ||
    (decide (t.note ≠ "") && ciIncludes t.note search))

/-- A store state whose in-memory list and whose persisted list, when
one exists, are both sorted by date descending. -/
def SortedState (s : StoreState) : Prop :=
  SortedTx s.transactions ∧ ∀ m, s.storage = some m → SortedTx m

/-- Concrete fixtures used by counterexamples and witnesses. -/
def txA : Tx :=
  { id := 7, amount := 50, category := "GoFundMe", isIncome := true,
    date := 100, note := "", isPinned := false }

def txB : Tx :=
  { id := 999, amount := -5, category := "Bargeld", isIncome := false,
    date := 300, note := "x", isPinned := true }

def inpA : TxInput :=
  { amount := 50, category := "GoFundMe", isIncome := true,
    date := 200, note := "" }

def s0 : StoreState := { transactions := [], storage := none, log := [] }

def th0 : ThemeState :=
  { isDarkMode := false, themeStorage := none, log := [] }

/-- Helper: folding addition of amounts starting from a equals a plus
the sum of the mapped amounts. -/
theorem foldl_amount (l : List Tx) (a : Rat) :
    l.foldl (fun s t => s + t.amount) a = a + (l.map Tx.amount).sum := by
  induction l generalizing a with
  | nil => simp
  | cons x xs ih => simp [ih, add_assoc]

/-- C2: totalIncome is the sum of the amounts of the income entries,
totalExpense the sum of the amounts of the expense entries, and
balance is exactly their difference, for every collection. -/
theorem claim_C2 (l : List Tx) :
    totalIncome l = ((l.filter fun t => t.isIncome).map Tx.amount).sum ∧
    totalExpense l = ((l.filter fun t => !t.isIncome).map Tx.amount).sum ∧
    balance l = totalIncome l - totalExpense l := by
  refine ⟨?_, ?_, rfl⟩ <;> simp [totalIncome, totalExpense, foldl_amount]

/-- C1 counterexample: a failed write of an attempted add from the
empty state logs the failure, but the in-memory collection does not
reflect the attempted mutation: the new record is absent and the
collection is still empty, so the claim that the in-memory change is
kept on persistence failure is false. -/
theorem claim_C1_cex :
    (addTransaction false 0 inpA s0).log ≠ s0.log ∧
    mkTx 0 inpA ∉ (addTransaction false 0 inpA s0).transactions ∧
    (addTransaction false 0 inpA s0).transactions.length = 0 := by
  decide

/-- C1, amended: when the write to durable storage fails, the failure
is logged, and the in-memory collection, far from keeping the
attempted mutation, is left exactly as it was, for all three mutating
operations; the persisted value is also unchanged. -/
theorem claim_C1 (now i : Int) (t : TxInput) (u : Tx) (s : StoreState) :
    (addTransaction false now t s).transactions = s.transactions ∧
    (updateTransaction false i u s).transactions = s.transactions ∧
    (deleteTransaction false i s).transactions = s.transactions ∧
    (addTransaction false now t s).storage = s.storage ∧
    (updateTransaction false i u s).storage = s.storage ∧
    (deleteTransaction false i s).storage = s.storage ∧
    (addTransaction false now t s).log = s.log ++ ["Failed to save transactions"] ∧
    (updateTransaction false i u s).log = s.log ++ ["Failed to save transactions"] ∧
    (deleteTransaction false i s).log = s.log ++ ["Failed to save transactions"] :=
  ⟨rfl, rfl, rfl, rfl, rfl, rfl, rfl, rfl, rfl⟩

/-- C8 counterexample: a failed theme write flips and keeps the
in-memory value, but nothing is logged (toggleTheme has no handler),
so the claim that the failure is logged is false. -/
theorem claim_C8_cex :
    (toggleTheme false th0).isDarkMode = true ∧
    (toggleTheme false th0).log = [] ∧
    (toggleTheme false th0).themeStorage = none := by
  decide

/-- C8, amended: Toggle flips the in-memory flag and persists the new
value on success; on persistence failure the flipped in-memory value
is retained and the stored value is unchanged, but the failure is not
logged, since toggleTheme has no error handler. -/
theorem claim_C8 (s : ThemeState) :
    (toggleTheme true s).isDarkMode = !s.isDarkMode ∧
    (toggleTheme false s).isDarkMode = !s.isDarkMode ∧
    (toggleTheme true s).themeStorage =
      some (if !s.isDarkMode then "dark" else "light") ∧
    (toggleTheme false s).themeStorage = s.themeStorage ∧
    (toggleTheme false s).log = s.log :=
  ⟨rfl, rfl, rfl, rfl, rfl⟩

/-- C6: the two chained filters of the income and expense screens
compute exactly the single filter by the predicate written from the
claim (kind matches, AND the category restriction, AND the search
restriction), and the surviving transactions form a sublist of the
input, hence keep their relative order. -/
theorem claim_C6 (S : List String) (q : String) (l : List Tx) :
    incomeFiltered S q l = l.filter (viewPred true S q) ∧
    expenseFiltered S q l = l.filter (viewPred false S q) ∧
    (incomeFiltered S q l).Sublist l ∧
    (expenseFiltered S q l).Sublist l := by
  refine ⟨?_, ?_, ?_, ?_⟩
  · rw [incomeFiltered, List.filter_filter]
    apply List.filter_congr
    intro t _
    rw [Bool.eq_iff_iff]
    simp only [matchesFilters, viewPred, Bool.and_eq_true,
      Bool.or_eq_true, beq_iff_eq, decide_eq_true_eq, List.length_eq_zero,
      Bool.not_eq_true', beq_eq_false_iff_ne, ne_eq, List.contains,
      List.elem_eq_mem]
    tauto
  · rw [expenseFiltered, List.filter_filter]
    apply List.filter_congr
    intro t _
    rw [Bool.eq_iff_iff]
    simp only [matchesFilters, viewPred, Bool.and_eq_true,
      Bool.or_eq_true, beq_iff_eq, decide_eq_true_eq, List.length_eq_zero,
      Bool.not_eq_true', beq_eq_false_iff_ne, ne_eq, List.contains,
      List.elem_eq_mem]
    tauto
  · exact (List.filter_sublist _).trans (List.filter_sublist l)
  · exact (List.filter_sublist _).trans (List.filter_sublist l)

/-- C5: updating an absent id leaves a sorted collection exactly
unchanged: the map is the identity and the re-sort of a sorted list
is the identity. -/
theorem claim_C5 (i : Int) (u : Tx) (l : List Tx)
    (habsent : ∀ t ∈ l, t.id ≠ i) (hsorted : SortedTx l) :
    updateList i u l = l := by
  have hmap : applyUpdate i u l = l := by
    have h1 : ∀ t ∈ l, (if t.id = i then setTxId i u else t) = id t :=
      fun t ht => if_neg (habsent t ht)
    rw [applyUpdate, List.map_congr_left h1, List.map_id]
  show sortTx (applyUpdate i u l) = l
  rw [hmap]
  exact List.Sorted.insertionSort_eq hsorted

/-- C5 witness: updating the id 42, absent from the singleton
collection, with a replacement record changes nothing. -/
theorem claim_C5_wit : updateList 42 txB [txA] = [txA] :=
  claim_C5 42 txB [txA] (by decide) (List.sorted_singleton txA)

/-- Helper for C4: with pairwise distinct ids, deleting the id of a
present element removes exactly one element at the filter stage. -/
theorem filter_ne_length (i : Int) :
    ∀ l : List Tx, (l.map Tx.id).Nodup → ∀ t ∈ l, t.id = i →
      (l.filter fun x => x.id != i).length + 1 = l.length := by
  intro l
  induction l with
  | nil => intro _ t ht; exact absurd ht (List.not_mem_nil t)
  | cons a as ih =>
    intro hnodup t ht hid
    rw [List.map_cons, List.nodup_cons] at hnodup
    rcases List.mem_cons.mp ht with rfl | hmem
    · have hall : ∀ x ∈ as, (x.id != i) = true := by
        intro x hx
        have hxid : x.id ≠ i := by
          intro h
          exact hnodup.1 (hid ▸ h ▸ List.mem_map_of_mem Tx.id hx)
        simpa [bne_iff_ne] using hxid
      have hfalse : (t.id != i) = false := by simp [hid]
      simp only [List.filter_cons, hfalse, if_false, Bool.false_eq_true,
        List.filter_eq_self.mpr hall, List.length_cons]
    · have haid : a.id ≠ i := by
        intro h
        exact hnodup.1 (h ▸ hid ▸ List.mem_map_of_mem Tx.id hmem)
      have htrue : (a.id != i) = true := by simpa [bne_iff_ne] using haid
      simp only [List.filter_cons, htrue, if_true, List.length_cons]
      rw [← ih hnodup.2 t hmem hid]
  

/-- C4: with pairwise distinct ids, deleting a present id yields a
collection with exactly one fewer element and no element with that
id; deleting an absent id from a sorted collection is a no-op. -/
theorem claim_C4 (i : Int) (l : List Tx)
    (hnodup : (l.map Tx.id).Nodup) :
    (∀ t ∈ l, t.id = i →
      (deleteList i l).length + 1 = l.length ∧
      ∀ x ∈ deleteList i l, x.id ≠ i) ∧
    ((∀ t ∈ l, t.id ≠ i) → SortedTx l → deleteList i l = l) := by
  constructor
  · intro t ht hid
    constructor
    · have hperm := List.perm_insertionSort dateGE
        (l.filter fun x => x.id != i)
      show (sortTx (l.filter fun x => x.id != i)).length + 1 = l.length
      rw [show sortTx (l.filter fun x => x.id != i)
            = (l.filter fun x => x.id != i).insertionSort dateGE from rfl,
        hperm.length_eq]
      exact filter_ne_length i l hnodup t ht hid
    · intro x hx
      simp only [deleteList, sortTx, List.mem_insertionSort] at hx
      simpa [bne_iff_ne] using List.of_mem_filter hx
  · intro habs hsort
    have hfix : l.filter (fun t => t.id != i) = l :=
      List.filter_eq_self.mpr fun t ht => by
        simpa [bne_iff_ne] using habs t ht
    show sortTx (l.filter fun t => t.id != i) = l
    rw [hfix]
    exact List.Sorted.insertionSort_eq hsort

/-- C4 witness: deleting the present id 7 from the singleton
collection leaves zero elements and none with id 7. -/
theorem claim_C4_wit :
    (deleteList 7 [txA]).length + 1 = [txA].length ∧
    ∀ x ∈ deleteList 7 [txA], x.id ≠ 7 :=
  (claim_C4 7 [txA] (by decide)).1 txA (by decide) (by decide)

/-- C3 counterexample: the generated id is Date.now() with no
uniqueness check against the collection, so adding at a millisecond
equal to an existing id produces a duplicate: the new id equals the
id of an element already present, and the resulting collection has
non-distinct ids, refuting unconditional id uniqueness. -/
theorem claim_C3_cex :
    (mkTx 7 inpA).id = txA.id ∧ txA ∈ [txA] ∧
    ¬ ((addList 7 inpA [txA]).map Tx.id).Nodup := by
  decide

/-- C3, amended: for every valid add input (amount positive), the
collection grows by exactly one element, the new record is present
and has isPinned false, and the ids remain pairwise distinct provided
the generated timestamp differs from every existing id, a condition
the code does not itself enforce. -/
theorem claim_C3 (now : Int) (t : TxInput) (l : List Tx)
    (_hpos : 0 < t.amount)
    (hfresh : ∀ x ∈ l, x.id ≠ now)
    (hnodup : (l.map Tx.id).Nodup) :
    (addList now t l).length = l.length + 1 ∧
    mkTx now t ∈ addList now t l ∧
    (mkTx now t).isPinned = false ∧
    ((addList now t l).map Tx.id).Nodup := by
  have hperm : List.Perm (addList now t l) (mkTx now t :: l) :=
    List.perm_insertionSort dateGE _
  refine ⟨?_, ?_, rfl, ?_⟩
  · rw [hperm.length_eq, List.length_cons]
  · exact hperm.mem_iff.mpr (List.mem_cons_self _ _)
  · rw [(hperm.map Tx.id).nodup_iff]
    simp only [List.map_cons, List.nodup_cons]
    refine ⟨?_, hnodup⟩
    intro hmem
    obtain ⟨x, hx, hxid⟩ := List.mem_map.mp hmem
    exact hfresh x hx hxid

/-- C3 witness: adding a positive income at timestamp 42 to the
singleton collection with id 7 grows it to two records, the new
record is present with isPinned false, and the ids stay distinct. -/
theorem claim_C3_wit :
    (addList 42 inpA [txA]).length = [txA].length + 1 ∧
    mkTx 42 inpA ∈ addList 42 inpA [txA] ∧
    (mkTx 42 inpA).isPinned = false ∧
    ((addList 42 inpA [txA]).map Tx.id).Nodup :=
  claim_C3 42 inpA [txA] (by decide) (by decide) (by decide)

/-- C9: when the id is present, the stored record is exactly the
supplied record with only its id field forced back to the matched id,
amount, category, kind, date, note and pin flag taken verbatim from
the caller, and every element of the result is either that record or
an untouched original with a different id; nothing constrains the
supplied fields. -/
theorem claim_C9 (i : Int) (u : Tx) (l : List Tx)
    (hpresent : ∃ t ∈ l, t.id = i) :
    setTxId i u ∈ updateList i u l ∧
    (∀ x ∈ updateList i u l,
      x = setTxId i u ∨ (x ∈ l ∧ x.id ≠ i)) ∧
    (setTxId i u).id = i ∧ (setTxId i u).amount = u.amount ∧
    (setTxId i u).category = u.category ∧
    (setTxId i u).isIncome = u.isIncome ∧
    (setTxId i u).date = u.date ∧ (setTxId i u).note = u.note ∧
    (setTxId i u).isPinned = u.isPinned := by
  obtain ⟨t, ht, hid⟩ := hpresent
  refine ⟨?_, ?_, rfl, rfl, rfl, rfl, rfl, rfl, rfl⟩
  · simp only [updateList, sortTx, List.mem_insertionSort, applyUpdate]
    exact List.mem_map.mpr ⟨t, ht, by rw [if_pos hid]⟩
  · intro x hx
    simp only [updateList, sortTx, List.mem_insertionSort,
      applyUpdate] at hx
    obtain ⟨y, hy, heq⟩ := List.mem_map.mp hx
    by_cases h : y.id = i
    · left; rw [← heq, if_pos h]
    · right; rw [← heq, if_neg h]; exact ⟨hy, h⟩

/-- C9 witness: updating the present id 7 with a record carrying a
negative amount, an expense-side category, a flipped kind and a set
pin flag stores exactly that record with id 7: the store applies no
validation at write time. -/
theorem claim_C9_wit :
    setTxId 7 txB ∈ updateList 7 txB [txA] ∧
    (∀ x ∈ updateList 7 txB [txA],
      x = setTxId 7 txB ∨ (x ∈ [txA] ∧ x.id ≠ 7)) ∧
    (setTxId 7 txB).id = 7 ∧ (setTxId 7 txB).amount = txB.amount ∧
    (setTxId 7 txB).category = txB.category ∧
    (setTxId 7 txB).isIncome = txB.isIncome ∧
    (setTxId 7 txB).date = txB.date ∧ (setTxId 7 txB).note = txB.note ∧
    (setTxId 7 txB).isPinned = txB.isPinned :=
  claim_C9 7 txB [txA] ⟨txA, by decide⟩

/-- C10: delete is idempotent on the collection, and it removes every
record whose id equals the argument, so no such record remains even
if duplicates existed. -/
theorem claim_C10 (i : Int) (l : List Tx) :
    deleteList i (deleteList i l) = deleteList i l ∧
    ∀ x ∈ deleteList i l, x.id ≠ i := by
  have hall : ∀ x ∈ deleteList i l, (x.id != i) = true := by
    intro x hx
    simp only [deleteList, sortTx, List.mem_insertionSort] at hx
    have hpx := List.of_mem_filter hx
    exact hpx
  constructor
  · have h1 : (deleteList i l).filter (fun t => t.id != i)
        = deleteList i l := List.filter_eq_self.mpr hall
    have h2 : deleteList i (deleteList i l)
        = sortTx ((deleteList i l).filter fun t => t.id != i) := rfl
    rw [h2, h1]
    exact List.Sorted.insertionSort_eq
      (List.sorted_insertionSort dateGE (l.filter fun t => t.id != i))
  · intro x hx
    simpa [bne_iff_ne] using hall x hx

/-- Helper for C7: saveTransactions preserves sortedness of the
in-memory and persisted collections for both outcomes of the write:
on success both become the freshly sorted list, on failure both are
left as they were. -/
theorem saveSorted (ok : Bool) (list : List Tx) (s : StoreState)
    (h : SortedState s) : SortedState (saveTransactions ok list s) := by
  cases ok with
  | false => exact ⟨h.1, h.2⟩
  | true =>
    refine ⟨List.sorted_insertionSort dateGE list, ?_⟩
    intro m hm
    obtain rfl : sortTx list = m := Option.some.inj hm
    exact List.sorted_insertionSort dateGE list
/-- C7: if the in-memory and persisted collections are sorted by date
descending, they still are immediately after any of the three
mutating operations, whether the write succeeds or fails. -/
theorem claim_C7 (ok : Bool) (now i : Int) (t : TxInput) (u : Tx)
    (s : StoreState) (h : SortedState s) :
    SortedState (addTransaction ok now t s) ∧
    SortedState (updateTransaction ok i u s) ∧
    SortedState (deleteTransaction ok i s) :=
  ⟨saveSorted ok _ s h, saveSorted ok _ s h, saveSorted ok _ s h⟩

/-- C7 witness: after a successful add, update and delete on the
empty initial state, the in-memory and persisted collections are
sorted by date descending. -/
theorem claim_C7_wit :
    SortedState (addTransaction true 1 inpA s0) ∧
    SortedState (updateTransaction true 7 txB s0) ∧
    SortedState (deleteTransaction true 7 s0) :=
  claim_C7 true 1 7 inpA txB s0 ⟨List.sorted_nil, fun _ hm => nomatch hm⟩
